import Mathlib

/-!
Verification development for the supermind conversation-orchestration and
streaming pipeline.

The definitions below are a shallow embedding of the TypeScript sources:

* the `Orchestrator` class (`packages/assistant/src/orchestrator.ts`):
  constructor defaults, `processMessage`, `processMessageStream`, the
  tone-of-response rewriting, and the history roll-back on failure;
* the delegation tools (`packages/assistant/src/tools.ts`) and the
  sub-agent factories (`packages/assistant/src/sub-agents.ts`);
* the connection resolution (`Orchestrator.getConnectionId`);
* the SSE encoder of the web-chat lambda (`formatSSE`) and the client
  decoder of the `useChatStream` hook (`parseSSEChunk` and its read loop).

External collaborators (the Bedrock model call, Composio, DynamoDB) are
passed in as explicit parameters: a model invocation is an
`Except String _` outcome, the Composio tool fetch is a function from
user id and toolkit name to a tool list, and the integration store lookup
is an `Except String (Option Integration)` value.

JavaScript string primitives (`split`, `trim`, `toLowerCase`,
`startsWith`, `slice`) are modelled by executable functions on the
character list of a `String`, mirroring their JS semantics on the
(ASCII) inputs the program uses.
-/

namespace Supermind

/-! ## JavaScript string primitives -/

/-- JS `String.prototype.split` with a single-character separator,
on character lists: `"a\nb".split("\n") = ["a","b"]`, `"".split(c) = [""]`. -/
def jsSplitChars (sep : Char) : List Char → List (List Char)
  | [] => [[]]
  | c :: cs =>
    match jsSplitChars sep cs with
    | [] => if c = sep then [[], []] else [[c]]
    | h :: t => if c = sep then [] :: h :: t else (c :: h) :: t

/-- JS `s.split(sep)` for a one-character separator. -/
def jsSplit (s : String) (sep : Char) : List String :=
  (jsSplitChars sep s.data).map String.mk

/-- Whitespace recognized by JS `trim` (ASCII subset actually occurring here). -/
def jsIsWhitespace (c : Char) : Bool :=
  c = ' ' || c = '\t' || c = '\n' || c = '\r'

/-- JS `s.trim()`. -/
def jsTrim (s : String) : String :=
  String.mk (((s.data.dropWhile jsIsWhitespace).reverse.dropWhile jsIsWhitespace).reverse)

/-- JS `toLowerCase` on one character (ASCII). -/
def jsToLowerChar (c : Char) : Char :=
  if 'A' ≤ c ∧ c ≤ 'Z' then Char.ofNat (c.toNat + 32) else c

/-- JS `s.toLowerCase()` (ASCII inputs). -/
def jsToLower (s : String) : String :=
  String.mk (s.data.map jsToLowerChar)

/-- JS `s.startsWith(p)`. -/
def jsStartsWith (s p : String) : Bool :=
  p.data.isPrefixOf s.data

/-- JS `s.slice(n)` for a nonnegative index. -/
def jsSliceFrom (s : String) (n : Nat) : String :=
  String.mk (s.data.drop n)

/-- JS `+=` accumulation of a chunk list into one string. -/
def joinChunks (chunks : List String) : String :=
  chunks.foldl (fun acc c => acc ++ c) ""

/-! ## Data model: conversation turns (`ModelMessage`) -/

/-- Message role, from the `ModelMessage` role field. -/
inductive Role where
  | system
  | user
  | assistant
deriving DecidableEq, Repr

/-- One conversation turn: `{ role, content }`. -/
structure Turn where
  role : Role
  content : String
deriving DecidableEq, Repr

/-- `ORCHESTRATOR_SYSTEM_PROMPT` from `prompts.ts` (content is opaque to all
properties proved here; the constant carries the exact role it is stored under). -/
def ORCHESTRATOR_SYSTEM_PROMPT : String :=
  "You are a Personal AI Assistant Orchestrator."

/-- History right after the `Orchestrator` constructor ran:
`this.conversationHistory.push({ role: system, content: ORCHESTRATOR_SYSTEM_PROMPT })`. -/
def initialHistory : List Turn :=
  [⟨Role.system, ORCHESTRATOR_SYSTEM_PROMPT⟩]

/-! ## Tone-of-response configuration and rewriting (orchestrator.ts:89-97, 183-195) -/

/-- Suffix appended for tone value matching `concise and direct`. -/
def conciseSuffix : String :=
  "\n\nResponse Tone: Skip the fluff, speedrun the answer.\""

/-- Suffix appended for tone value matching `professional and friendly`. -/
def professionalSuffix : String :=
  "\n\nResponse Tone: Helpful genius, but fun at parties.\""

/-- Suffix appended for tone value matching `detailed and conversational`. -/
def detailedSuffix : String :=
  "\n\nNerd out and spill the tea."

/-- Constructor default resolution for `toneOfResponse`, modelling the TS
spread `{ toneOfResponse: +concise and direct+, ...config }`: the outer
`Option` is presence of the key in the caller config, the inner `Option`
distinguishes a string value from an explicit `undefined`. -/
def resolveToneOfResponse : Option (Option String) → Option String
  | none => some "concise and direct"
  | some v => v

/-- The `additionalContext ? context + separator + message : message`
prefixing in both process methods (JS truthiness: empty context string is falsy). -/
def withAdditionalContext (additionalContext : Option String) (message : String) : String :=
  match additionalContext with
  | some c => if c = "" then message else c ++ "\n\nUser message: " ++ message
  | none => message

/-- The tone block of `processMessage` (orchestrator.ts:183-195).
Returns the stored user content and whether the invalid-tone warning was logged.
`if (this.config.toneOfResponse)` skips the whole block for an absent or
empty value; otherwise the trimmed, lowercased value is compared with the
three recognized tones and an unrecognized value only warns. -/
def applyTone (tone : Option String) (userContent : String) : String × Bool :=
  match tone with
  | none => (userContent, false)
  | some t =>
    if t = "" then (userContent, false)
    else
      let k := jsToLower (jsTrim t)
      if k = "concise and direct" then (userContent ++ conciseSuffix, false)
      else if k = "professional and friendly" then (userContent ++ professionalSuffix, false)
      else if k = "detailed and conversational" then (userContent ++ detailedSuffix, false)
      else (userContent, true)

/-! ## Orchestrator.processMessage (orchestrator.ts:171-257) -/

/-- Result of one buffered `processMessage` call: the history afterwards,
the messages array handed to `generateText`, the outcome returned or
re-thrown, and whether the invalid-tone warning fired. -/
structure ProcessMessageResult where
  history : List Turn
  sentToModel : List Turn
  outcome : Except String String
  warned : Bool
deriving Repr

/-- `Orchestrator.processMessage`: tone-rewrites the (context-prefixed)
message, pushes it as a `user` turn, calls `generateText` on the full
history (its outcome is the `gen` parameter), then on success pushes the
`assistant` turn and on failure pops the just-pushed turn and re-throws. -/
def processMessage (history : List Turn) (tone : Option String) (message : String)
    (additionalContext : Option String) (gen : Except String String) :
    ProcessMessageResult :=
  let tc := applyTone tone (withAdditionalContext additionalContext message)
  let h1 := history ++ [⟨Role.user, tc.1⟩]
  match gen with
  | .ok text => ⟨h1 ++ [⟨Role.assistant, text⟩], h1, .ok text, tc.2⟩
  | .error e => ⟨h1.dropLast, h1, .error e, tc.2⟩

/-! ## Orchestrator.processMessageStream (orchestrator.ts:280-360) -/

/-- Result of starting one streaming call: the history after the user turn
was pushed (and rolled back if `streamText` threw), the messages array
handed to `streamText`, and either the chunk sequence of the returned
stream or the re-thrown error. -/
structure ProcessStreamResult where
  history : List Turn
  sentToModel : List Turn
  outcome : Except String (List String)
deriving Repr

/-- `Orchestrator.processMessageStream`: pushes the (context-prefixed)
user message as a `user` turn — with no tone rewriting — and calls
`streamText`; on a throw it pops the just-pushed turn and re-throws,
otherwise it returns the wrapped chunk stream. -/
def processMessageStream (history : List Turn) (message : String)
    (additionalContext : Option String) (streamInit : Except String (List String)) :
    ProcessStreamResult :=
  let userContent := withAdditionalContext additionalContext message
  let h1 := history ++ [⟨Role.user, userContent⟩]
  match streamInit with
  | .ok chunks => ⟨h1, h1, .ok chunks⟩
  | .error e => ⟨h1.dropLast, h1, .error e⟩

/-- State after a consumer drove the `enhancedTextStream` wrapper
(orchestrator.ts:316-344) for `pulls` generator steps over `chunks`:
step `i ≤ chunks.length` yields chunk `i` (accumulating `fullText`), and
only the step after the last chunk runs the code after the `for await`
loop, which pushes `fullText` as the `assistant` turn. A consumer that
abandons the generator early never executes that trailing code. -/
structure StreamConsumption where
  history : List Turn
  yielded : List String
  committed : Bool
deriving DecidableEq, Repr

/-- Semantics of driving `enhancedTextStream` with `pulls` calls to `next()`. -/
def consumeEnhancedTextStream (history : List Turn) (chunks : List String)
    (pulls : Nat) : StreamConsumption :=
  if chunks.length < pulls then
    ⟨history ++ [⟨Role.assistant, joinChunks chunks⟩], chunks, true⟩
  else
    ⟨history, chunks.take pulls, false⟩

/-! ## Whole successful calls in sequence -/

/-- One successful call on an `Orchestrator` instance: either a buffered
`processMessage` whose `generateText` returned `text`, or a
`processMessageStream` whose stream emitted `chunks` and was fully drained. -/
inductive OrchestratorCall where
  | buffered (message : String) (additionalContext : Option String) (text : String)
  | streamed (message : String) (additionalContext : Option String) (chunks : List String)

/-- History transformer of one successful call (stream fully drained). -/
def runSuccessfulCall (tone : Option String) (history : List Turn) :
    OrchestratorCall → List Turn
  | .buffered m c t => (processMessage history tone m c (.ok t)).history
  | .streamed m c ks =>
    let r := processMessageStream history m c (.ok ks)
    (consumeEnhancedTextStream r.history ks (ks.length + 1)).history

/-- History after a sequence of successful calls. -/
def runSuccessfulCalls (tone : Option String) (history : List Turn)
    (calls : List OrchestratorCall) : List Turn :=
  calls.foldl (runSuccessfulCall tone) history

/-! ## SSE wire encoding (web-chat lambda, `formatSSE`) -/

/-- `SSEMessage` of the web-chat lambda: `{ data, event, id?, retry? }`. -/
structure SSEMessage where
  data : String
  event : String
  id : Option String := none
  retry : Option Nat := none
deriving DecidableEq, Repr

/-- `formatSSE`: emits optional `event:`/`id:`/`retry:` lines (each guarded
by JS truthiness of the field), then one `data:` line per newline-separated
piece of the payload, then a blank line. -/
def formatSSE (m : SSEMessage) : String :=
  let o1 := if m.event = "" then "" else "event: " ++ m.event ++ "\n"
  let o2 := o1 ++
    (match m.id with
     | some i => if i = "" then "" else "id: " ++ i ++ "\n"
     | none => "")
  let o3 := o2 ++
    (match m.retry with
     | some r => if r = 0 then "" else "retry: " ++ toString r ++ "\n"
     | none => "")
  let o4 := (jsSplit m.data '\n').foldl (fun acc line => acc ++ "data: " ++ line ++ "\n") o3
  o4 ++ "\n"

/-- The lambda handler encodes the orchestrator chunks as `message` events
with 1-based sequence ids (`streamOrchestratorResponse`). -/
def encodeChunks (chunks : List String) : List String :=
  ((List.range chunks.length).zip chunks).map
    (fun p => formatSSE ⟨p.2, "message", some (toString (p.1 + 1)), none⟩)

/-! ## Client SSE decoding (`useChatStream`) -/

/-- `parseSSEChunk` of the `useChatStream` hook: split the received text on
newlines; an `event: ` line (sliced at 7, trimmed) replaces the default
event type `message`, a `data: ` line (sliced at 6) replaces the payload;
returns `null` when the final payload is the empty string. -/
def parseSSEChunk (chunk : String) : Option (String × String) :=
  let r := (jsSplit chunk '\n').foldl
    (fun (acc : String × String) line =>
      if jsStartsWith line "event: " then (jsTrim (jsSliceFrom line 7), acc.2)
      else if jsStartsWith line "data: " then (acc.1, jsSliceFrom line 6)
      else acc)
    ("message", "")
  if r.2 = "" then none else some r

/-- Client-side state of the `startStream` read loop: the
`completedRef`/`accumulatedMessageRef` refs and the observable callback
activity (every argument ever passed to `onComplete`, and the number of
`onError` calls). -/
structure ClientStreamState where
  completed : Bool
  accumulated : String
  completeCalls : List String
  errorCalls : Nat
deriving DecidableEq, Repr

/-- Refs as initialized at the top of `startStream`. -/
def initialClientState : ClientStreamState :=
  ⟨false, "", [], 0⟩

/-- The guarded completion signal: `if (!completedRef.current) { completedRef.current
= true; onComplete?.(finalMessage); }` with `finalMessage` the accumulated text. -/
def fireCompleteOnce (s : ClientStreamState) : ClientStreamState :=
  if s.completed then s
  else { s with completed := true, completeCalls := s.completeCalls ++ [s.accumulated] }

/-- The `switch (event)` of the read loop on one parsed frame:
`connection` only touches status state, `message` accumulates the payload,
`complete` fires the guarded completion, `error` reports a server error
(without touching `completedRef`), anything else only logs. -/
def handleParsedEvent (s : ClientStreamState) (ev : String × String) : ClientStreamState :=
  if ev.1 = "connection" then s
  else if ev.1 = "message" then { s with accumulated := s.accumulated ++ ev.2 }
  else if ev.1 = "complete" then fireCompleteOnce s
  else if ev.1 = "error" then { s with errorCalls := s.errorCalls + 1 }
  else s

/-- One iteration of the read loop on the decoded text of one `reader.read()`:
frames that parse to `null` are skipped. -/
def handleRead (s : ClientStreamState) (chunkText : String) : ClientStreamState :=
  match parseSSEChunk chunkText with
  | some ev => handleParsedEvent s ev
  | none => s

/-- How one stream ends on the client: either the reader reports `done`
(natural end of stream), or the caller invokes `stopStream`, which aborts
the fetch; the in-flight `read()` then rejects with an `AbortError` that
the catch block ignores. -/
inductive StreamEnding where
  | endOfStream
  | abort
deriving DecidableEq, Repr

/-- A whole client stream: the reads processed by the loop followed by its
ending. Both the `done` branch of the loop and `stopStream` run the same
guarded completion signal on the state accumulated so far. -/
def runClientStream (reads : List String) (ending : StreamEnding) : ClientStreamState :=
  let s := reads.foldl handleRead initialClientState
  match ending with
  | .endOfStream => fireCompleteOnce s
  | .abort => fireCompleteOnce s

/-! ## Connection resolution (Orchestrator.getConnectionId) -/

/-- The integration record read from DynamoDB (fields used here). -/
structure Integration where
  connectionId : String
  connectionStatus : String
deriving DecidableEq, Repr

/-- `Orchestrator.getConnectionId`: returns the integration connection id
when the store reports an `active` integration, otherwise (including when
the store lookup throws) falls back to `config.connectionIds?.[connector] || null`
(JS `||` turns an empty string into `null`). -/
def getConnectionId (fetched : Except String (Option Integration))
    (configConnectionId : Option String) : Option String :=
  let fallback : Option String :=
    match configConnectionId with
    | some s => if s = "" then none else some s
    | none => none
  match fetched with
  | .ok (some integration) =>
    if integration.connectionStatus = "active" then some integration.connectionId else fallback
  | .ok none => fallback
  | .error _ => fallback

/-! ## Delegation tools (tools.ts, createDelegationTools) -/

/-- Value returned across the tool boundary: `{ result }` or `{ error }`. -/
inductive DelegationToolResult where
  | result (text : String)
  | error (message : String)
deriving DecidableEq, Repr

/-- Error payload of `delegate_to_gmail` when no connection resolves. -/
def gmailNotConnectedError : String :=
  "Gmail not connected. Please connect Gmail first in your profile settings."

/-- Error payload of `delegate_to_calendar` when no connection resolves. -/
def calendarNotConnectedError : String :=
  "Google Calendar not connected. Please connect Calendar first in your profile settings."

/-- `execute` of `delegate_to_gmail`: a falsy connection id yields the
structured not-connected error; otherwise the sub-agent round trip
(`createGmailAgent` + `executeGmailTask`, its outcome the `taskRun`
parameter) is run inside try/catch and a throw becomes a structured
`Gmail task failed` error. -/
def delegateToGmailExecute (connectionId : Option String)
    (taskRun : Except String String) : DelegationToolResult :=
  match connectionId with
  | none => .error gmailNotConnectedError
  | some c =>
    if c = "" then .error gmailNotConnectedError
    else
      match taskRun with
      | .ok text => .result text
      | .error m => .error ("Gmail task failed: " ++ m)

/-- `execute` of `delegate_to_calendar`, same shape as the Gmail tool. -/
def delegateToCalendarExecute (connectionId : Option String)
    (taskRun : Except String String) : DelegationToolResult :=
  match connectionId with
  | none => .error calendarNotConnectedError
  | some c =>
    if c = "" then .error calendarNotConnectedError
    else
      match taskRun with
      | .ok text => .result text
      | .error m => .error ("Calendar task failed: " ++ m)

/-! ## Sub-agents (sub-agents.ts) -/

/-- A Composio tool tagged with the toolkit it belongs to. -/
structure ComposioTool where
  name : String
  toolkit : String
deriving DecidableEq, Repr

/-- `composio.tools.get(userId, { toolkits })`: the external Composio
service, abstracted as a per-toolkit fetch function. -/
def composioToolsGet (fetch : String → String → List ComposioTool)
    (userId : String) (toolkits : List String) : List ComposioTool :=
  (toolkits.map (fetch userId)).flatten

/-- Sub-agent context `{ tools, model, connectedAccountId }`. -/
structure SubAgentContext where
  tools : List ComposioTool
  modelId : String
  connectedAccountId : String
deriving DecidableEq, Repr

/-- `createGmailAgent`: fetches tools for the `gmail` toolkit only. -/
def createGmailAgent (fetch : String → String → List ComposioTool)
    (userId connectedAccountId : String) : SubAgentContext :=
  ⟨composioToolsGet fetch userId ["gmail"],
   "us.anthropic.claude-3-5-haiku-20241022-v1:0", connectedAccountId⟩

/-- `createCalendarAgent`: fetches tools for the `googlecalendar` toolkit only. -/
def createCalendarAgent (fetch : String → String → List ComposioTool)
    (userId connectedAccountId : String) : SubAgentContext :=
  ⟨composioToolsGet fetch userId ["googlecalendar"],
   "us.anthropic.claude-3-5-haiku-20241022-v1:0", connectedAccountId⟩

/-- A concrete Composio fetch used to instantiate isolation statements:
each toolkit owns a single tool tagged with the toolkit name. -/
def exampleToolFetch : String → String → List ComposioTool :=
  fun _ toolkit => [⟨"TOOL", toolkit⟩]

/-! ## Helper lemmas -/

/-- Popping the just-pushed last element restores the original list. -/
theorem dropLast_append_single (l : List Turn) (t : Turn) :
    (l ++ [t]).dropLast = l := by
  simp

/-- The tone block on the recognized value `concise and direct`. -/
theorem applyTone_concise (u : String) :
    applyTone (some "concise and direct") u = (u ++ conciseSuffix, false) := by
  have h1 : ("concise and direct" : String) ≠ "" := by decide
  have h2 : jsToLower (jsTrim "concise and direct") = "concise and direct" := by decide
  simp [applyTone, h1, h2]

/-- The tone block on the recognized value `professional and friendly`. -/
theorem applyTone_professional (u : String) :
    applyTone (some "professional and friendly") u = (u ++ professionalSuffix, false) := by
  have h1 : ("professional and friendly" : String) ≠ "" := by decide
  have h2 : jsToLower (jsTrim "professional and friendly") = "professional and friendly" := by
    decide
  simp [applyTone, h1, h2]

/-- The tone block on the recognized value `detailed and conversational`. -/
theorem applyTone_detailed (u : String) :
    applyTone (some "detailed and conversational") u = (u ++ detailedSuffix, false) := by
  have h1 : ("detailed and conversational" : String) ≠ "" := by decide
  have h2 : jsToLower (jsTrim "detailed and conversational") = "detailed and conversational" := by
    decide
  simp [applyTone, h1, h2]

/-- The tone block on a nonempty value recognized as none of the three
tones: content unchanged, warning logged. -/
theorem applyTone_unrecognized (t u : String) (h0 : t ≠ "")
    (h1 : jsToLower (jsTrim t) ≠ "concise and direct")
    (h2 : jsToLower (jsTrim t) ≠ "professional and friendly")
    (h3 : jsToLower (jsTrim t) ≠ "detailed and conversational") :
    applyTone (some t) u = (u, true) := by
  simp [applyTone, h0, h1, h2, h3]

/-- The context prefix never shortens the message. -/
theorem length_le_withAdditionalContext (c : Option String) (m : String) :
    m.length ≤ (withAdditionalContext c m).length := by
  cases c with
  | none => simp [withAdditionalContext]
  | some s =>
    by_cases hs : s = "" <;> simp [withAdditionalContext, hs, String.length_append]

/-- Every successful call appends exactly one user and then one assistant turn. -/
theorem runSuccessfulCall_shape (tone : Option String) (history : List Turn)
    (call : OrchestratorCall) :
    ∃ userContent assistantText,
      runSuccessfulCall tone history call
        = history ++ [⟨Role.user, userContent⟩, ⟨Role.assistant, assistantText⟩] := by
  cases call with
  | buffered m c t =>
    exact ⟨(applyTone tone (withAdditionalContext c m)).1, t, by
      simp [runSuccessfulCall, processMessage]⟩
  | streamed m c ks =>
    refine ⟨withAdditionalContext c m, joinChunks ks, ?_⟩
    simp [runSuccessfulCall, processMessageStream, consumeEnhancedTextStream,
      Nat.lt_succ_self]

/-- A successful call sequence only appends to the starting history,
two turns per call. -/
theorem runSuccessfulCalls_shape (tone : Option String) (calls : List OrchestratorCall) :
    ∀ history : List Turn, ∃ rest : List Turn,
      runSuccessfulCalls tone history calls = history ++ rest ∧
      rest.length = 2 * calls.length := by
  induction calls with
  | nil => exact fun history => ⟨[], by simp [runSuccessfulCalls], by simp⟩
  | cons c cs ih =>
    intro history
    obtain ⟨uc, ac, hstep⟩ := runSuccessfulCall_shape tone history c
    obtain ⟨rest, hrest, hlen⟩ := ih (runSuccessfulCall tone history c)
    refine ⟨[⟨Role.user, uc⟩, ⟨Role.assistant, ac⟩] ++ rest, ?_, ?_⟩
    · have : runSuccessfulCalls tone history (c :: cs)
          = runSuccessfulCalls tone (runSuccessfulCall tone history c) cs := by
        simp [runSuccessfulCalls]
      rw [this, hrest, hstep, List.append_assoc]
    · simp [hlen]; omega

/-- The guarded completion invariant of the client read loop: the number of
`onComplete` calls is 0 before completion and 1 after, for every reachable
state of the fold. -/
theorem clientFold_invariant (reads : List String) (s : ClientStreamState)
    (h : (s.completed = true → s.completeCalls.length = 1) ∧
         (s.completed = false → s.completeCalls = [])) :
    ((reads.foldl handleRead s).completed = true →
      (reads.foldl handleRead s).completeCalls.length = 1) ∧
    ((reads.foldl handleRead s).completed = false →
      (reads.foldl handleRead s).completeCalls = []) := by
  induction reads generalizing s with
  | nil => simpa using h
  | cons r rs ih =>
    have hstep : ((handleRead s r).completed = true →
          (handleRead s r).completeCalls.length = 1) ∧
        ((handleRead s r).completed = false → (handleRead s r).completeCalls = []) := by
      unfold handleRead
      cases hp : parseSSEChunk r with
      | none => simpa using h
      | some ev =>
        unfold handleParsedEvent fireCompleteOnce
        by_cases h1 : ev.1 = "connection" <;>
          by_cases h2 : ev.1 = "message" <;>
            by_cases h3 : ev.1 = "complete" <;>
              by_cases h4 : ev.1 = "error" <;>
                cases hc : s.completed <;>
                  simp_all
    simpa [List.foldl_cons] using ih (handleRead s r) hstep

/-- `handleRead` never touches the error-callback counter except through an
explicit `error` frame, and the guarded completion signal never touches it. -/
theorem fireCompleteOnce_errorCalls (s : ClientStreamState) :
    (fireCompleteOnce s).errorCalls = s.errorCalls := by
  unfold fireCompleteOnce
  cases hc : s.completed <;> simp

/-- The guarded completion signal always leaves the state completed. -/
theorem fireCompleteOnce_completed (s : ClientStreamState) :
    (fireCompleteOnce s).completed = true := by
  unfold fireCompleteOnce
  cases hc : s.completed <;> simp [hc]

/-! ## Claim theorems -/

/-- C1: for every call to the buffered respond operation (`processMessage`)
and the streaming respond operation (`processMessageStream`) in which the
model-invocation step throws, the conversation history after the failed
call equals the history before the call — the just-appended user turn is
removed — and the error is re-raised to the caller. -/
theorem failed_call_rolls_back_history (history : List Turn) (tone : Option String)
    (message : String) (additionalContext : Option String) (e : String) :
    (processMessage history tone message additionalContext (.error e)).history = history ∧
    (processMessage history tone message additionalContext (.error e)).history.length
      = history.length ∧
    (processMessage history tone message additionalContext (.error e)).outcome = .error e ∧
    (processMessageStream history message additionalContext (.error e)).history = history ∧
    (processMessageStream history message additionalContext (.error e)).outcome = .error e := by
  refine ⟨?_, ?_, rfl, ?_, rfl⟩ <;>
    simp [processMessage, processMessageStream]

/-- C2: over any sequence of successful `processMessage` /
`processMessageStream` calls (each stream fully drained) on one
`Orchestrator` instance, the history grows by exactly 2 per call — one
`user` turn then one `assistant` turn — and the first element of the
history is always the `system` turn. -/
theorem successful_calls_history_invariant (tone : Option String)
    (calls : List OrchestratorCall) :
    (runSuccessfulCalls tone initialHistory calls).length = 1 + 2 * calls.length ∧
    (runSuccessfulCalls tone initialHistory calls).head?
      = some ⟨Role.system, ORCHESTRATOR_SYSTEM_PROMPT⟩ ∧
    ∀ history call, ∃ userContent assistantText,
      runSuccessfulCall tone history call
        = history ++ [⟨Role.user, userContent⟩, ⟨Role.assistant, assistantText⟩] := by
  obtain ⟨rest, hrest, hlen⟩ := runSuccessfulCalls_shape tone calls initialHistory
  refine ⟨?_, ?_, fun history call => runSuccessfulCall_shape tone history call⟩
  · rw [hrest]
    simp [initialHistory, hlen]
    omega
  · rw [hrest]
    simp [initialHistory]

/-- C3: if the consumer of the stream returned by `processMessageStream`
abandons it before completion, the accumulated partial text is never
committed to history as an assistant turn; the assistant turn is appended
only once the chunk sequence is fully drained, and then its content equals
the concatenation of all yielded chunks. -/
theorem stream_commit_at_most_once (history : List Turn) (message : String)
    (additionalContext : Option String) (chunks : List String) (pulls : Nat) :
    (pulls ≤ chunks.length →
      (consumeEnhancedTextStream
        (processMessageStream history message additionalContext (.ok chunks)).history
        chunks pulls).committed = false ∧
      (consumeEnhancedTextStream
        (processMessageStream history message additionalContext (.ok chunks)).history
        chunks pulls).history
        = (processMessageStream history message additionalContext (.ok chunks)).history) ∧
    (chunks.length < pulls →
      (consumeEnhancedTextStream
        (processMessageStream history message additionalContext (.ok chunks)).history
        chunks pulls).committed = true ∧
      (consumeEnhancedTextStream
        (processMessageStream history message additionalContext (.ok chunks)).history
        chunks pulls).history
        = (processMessageStream history message additionalContext (.ok chunks)).history
          ++ [⟨Role.assistant, joinChunks chunks⟩] ∧
      (consumeEnhancedTextStream
        (processMessageStream history message additionalContext (.ok chunks)).history
        chunks pulls).yielded = chunks) := by
  constructor
  · intro h
    have hnot : ¬ chunks.length < pulls := Nat.not_lt.mpr h
    simp [consumeEnhancedTextStream, hnot]
  · intro h
    simp [consumeEnhancedTextStream, h]

/-- C3 witness: with two chunks, one pull leaves the stream uncommitted and
three pulls (a full drain) commit it. -/
theorem stream_commit_at_most_once_witness :
    (consumeEnhancedTextStream
      (processMessageStream initialHistory "hi" none (.ok ["a", "b"])).history
      ["a", "b"] 1).committed = false ∧
    (consumeEnhancedTextStream
      (processMessageStream initialHistory "hi" none (.ok ["a", "b"])).history
      ["a", "b"] 3).committed = true :=
  ⟨((stream_commit_at_most_once initialHistory "hi" none ["a", "b"] 1).1 (by decide)).1,
   ((stream_commit_at_most_once initialHistory "hi" none ["a", "b"] 3).2 (by decide)).1⟩

/-- C4 (code bug): encoding the single chunk `"a\nb"` emits two `data:`
lines, but the client parser keeps only the last `data:` line, so the
decoded payload and the accumulated buffer are `"b"`, not `"a\nb"` with the
newline restored. -/
theorem sse_newline_roundtrip_bug :
    formatSSE ⟨"a\nb", "message", some "1", none⟩
      = "event: message\nid: 1\ndata: a\ndata: b\n\n" ∧
    parseSSEChunk "event: message\nid: 1\ndata: a\ndata: b\n\n" = some ("message", "b") ∧
    (runClientStream (encodeChunks ["a\nb"]) StreamEnding.endOfStream).accumulated = "b" ∧
    ("b" : String) ≠ "a\nb" := by
  refine ⟨by decide, by decide, by decide, by decide⟩

/-- C5 counterexample: with the default tone configuration (which resolves
to `concise and direct`), `processMessageStream "X"` appends the user turn
`"X"` unchanged, while the tone transform would have stored
`"X" ++ conciseSuffix`: the streaming operation does not apply the
tone-directive transform. -/
theorem stream_tone_counterexample :
    (processMessageStream initialHistory "X" none (.ok ["ok"])).history
      = initialHistory ++ [⟨Role.user, "X"⟩] ∧
    (applyTone (resolveToneOfResponse none) "X").1 = "X" ++ conciseSuffix ∧
    ("X" : String) ≠ "X" ++ conciseSuffix := by
  refine ⟨by decide, by decide, by decide⟩

/-- C5 (amended): `processMessageStream` appends the user turn without the
tone-directive transform — the stored content is the message with only the
additional-context prefix — and the stored history is exactly the message
list passed to the model invocation (also on the failure path). -/
theorem stream_appends_untoned_user_turn (history : List Turn) (message : String)
    (additionalContext : Option String) (chunks : List String) (e : String) :
    (processMessageStream history message additionalContext (.ok chunks)).history
      = history ++ [⟨Role.user, withAdditionalContext additionalContext message⟩] ∧
    (processMessageStream history message additionalContext (.ok chunks)).sentToModel
      = (processMessageStream history message additionalContext (.ok chunks)).history ∧
    (processMessageStream history message additionalContext (.error e)).sentToModel
      = history ++ [⟨Role.user, withAdditionalContext additionalContext message⟩] :=
  ⟨rfl, rfl, rfl⟩

/-- C6 counterexample: the empty string is not one of the three recognized
tone values, yet `processMessage` with tone `""` records the user turn
unchanged without emitting the invalid-tone warning (the truthiness guard
skips the whole tone block), contradicting `emits a logged warning` for
every unrecognized value. -/
theorem tone_warning_counterexample :
    (processMessage initialHistory (some "") "X" none (.ok "ok")).history
      = initialHistory ++ [⟨Role.user, "X"⟩, ⟨Role.assistant, "ok"⟩] ∧
    (processMessage initialHistory (some "") "X" none (.ok "ok")).warned = false ∧
    ("" : String) ≠ "concise and direct" ∧
    ("" : String) ≠ "professional and friendly" ∧
    ("" : String) ≠ "detailed and conversational" := by
  refine ⟨by decide, by decide, by decide, by decide, by decide⟩

/-- C6 (amended): for each of the three recognized tone values,
`processMessage "X"` records the user turn `"X"` followed by the fixed
suffix for that tone; a nonempty tone value recognized (after trimming and
lowercasing) as none of the three records `"X"` unchanged and emits the
warning; an absent or empty tone value records `"X"` unchanged with no
warning; no case raises an error. -/
theorem tone_directive_determinism (history : List Turn) (message text : String) :
    ((processMessage history (some "concise and direct") message none (.ok text)).history
      = history ++ [⟨Role.user, message ++ conciseSuffix⟩, ⟨Role.assistant, text⟩] ∧
     (processMessage history (some "concise and direct") message none (.ok text)).warned
      = false) ∧
    ((processMessage history (some "professional and friendly") message none
        (.ok text)).history
      = history ++ [⟨Role.user, message ++ professionalSuffix⟩, ⟨Role.assistant, text⟩] ∧
     (processMessage history (some "professional and friendly") message none
        (.ok text)).warned = false) ∧
    ((processMessage history (some "detailed and conversational") message none
        (.ok text)).history
      = history ++ [⟨Role.user, message ++ detailedSuffix⟩, ⟨Role.assistant, text⟩] ∧
     (processMessage history (some "detailed and conversational") message none
        (.ok text)).warned = false) ∧
    (∀ t, t ≠ "" →
      jsToLower (jsTrim t) ≠ "concise and direct" →
      jsToLower (jsTrim t) ≠ "professional and friendly" →
      jsToLower (jsTrim t) ≠ "detailed and conversational" →
      (processMessage history (some t) message none (.ok text)).history
        = history ++ [⟨Role.user, message⟩, ⟨Role.assistant, text⟩] ∧
      (processMessage history (some t) message none (.ok text)).warned = true ∧
      (processMessage history (some t) message none (.ok text)).outcome = .ok text) ∧
    ((processMessage history none message none (.ok text)).history
      = history ++ [⟨Role.user, message⟩, ⟨Role.assistant, text⟩] ∧
     (processMessage history none message none (.ok text)).warned = false) ∧
    ((processMessage history (some "") message none (.ok text)).history
      = history ++ [⟨Role.user, message⟩, ⟨Role.assistant, text⟩] ∧
     (processMessage history (some "") message none (.ok text)).warned = false) ∧
    (processMessage history (some "concise and direct") message none (.ok text)).outcome
      = .ok text := by
  refine ⟨⟨?_, ?_⟩, ⟨?_, ?_⟩, ⟨?_, ?_⟩, ?_, ⟨?_, ?_⟩, ⟨?_, ?_⟩, rfl⟩
  · simp [processMessage, applyTone_concise, withAdditionalContext]
  · simp [processMessage, applyTone_concise, withAdditionalContext]
  · simp [processMessage, applyTone_professional, withAdditionalContext]
  · simp [processMessage, applyTone_professional, withAdditionalContext]
  · simp [processMessage, applyTone_detailed, withAdditionalContext]
  · simp [processMessage, applyTone_detailed, withAdditionalContext]
  · intro t h0 h1 h2 h3
    refine ⟨?_, ?_, rfl⟩ <;>
      simp [processMessage, applyTone_unrecognized t _ h0 h1 h2 h3, withAdditionalContext]
  · simp [processMessage, applyTone, withAdditionalContext]
  · simp [processMessage, applyTone, withAdditionalContext]
  · simp [processMessage, applyTone, withAdditionalContext]
  · simp [processMessage, applyTone, withAdditionalContext]

/-- C6 witness: applying the theorem at the unrecognized nonempty tone
value `silly` records the message unchanged with the warning flag set. -/
theorem tone_directive_determinism_witness :
    (processMessage initialHistory (some "silly") "X" none (.ok "ok")).warned = true :=
  (((tone_directive_determinism initialHistory "X" "ok").2.2.2.1 "silly"
    (by decide) (by decide) (by decide) (by decide)).2.1)

/-- C7: the client completion callback fires exactly once per stream,
whatever the frame sequence and however the stream ends (explicit
`complete` frame followed by natural end of stream, natural end with no
terminal frame, or caller-initiated abort); an ending never adds an error
callback, and when no frame completed the stream early the single
completion carries the accumulated text. -/
theorem completion_fires_exactly_once (reads : List String) (ending : StreamEnding) :
    (runClientStream reads ending).completeCalls.length = 1 ∧
    (runClientStream reads ending).completed = true ∧
    (runClientStream reads ending).errorCalls
      = (reads.foldl handleRead initialClientState).errorCalls ∧
    ((reads.foldl handleRead initialClientState).completed = false →
      (runClientStream reads ending).completeCalls
        = [(reads.foldl handleRead initialClientState).accumulated]) := by
  have hinv := clientFold_invariant reads initialClientState
    (by simp [initialClientState])
  have hrun : runClientStream reads ending
      = fireCompleteOnce (reads.foldl handleRead initialClientState) := by
    cases ending <;> rfl
  rw [hrun]
  set s := reads.foldl handleRead initialClientState with hs
  refine ⟨?_, fireCompleteOnce_completed s, fireCompleteOnce_errorCalls s, ?_⟩
  · unfold fireCompleteOnce
    cases hc : s.completed with
    | true => simpa [hc] using hinv.1 hc
    | false =>
      have := hinv.2 hc
      simp [hc, this]
  · intro hc
    have := hinv.2 hc
    unfold fireCompleteOnce
    simp [hc, this]

/-- C7 witness: aborting after one `Hello` message frame fires the single
completion with `Hello`. -/
theorem completion_fires_exactly_once_witness :
    (runClientStream (encodeChunks ["Hello"]) StreamEnding.abort).completeCalls
      = ["Hello"] :=
  (completion_fires_exactly_once (encodeChunks ["Hello"]) StreamEnding.abort).2.2.2
    (by decide)

/-- C8: when connection resolution yields no active upstream connection,
each delegation tool returns its structured not-connected `error` result
without consulting the task run at all (it fails closed), every execution
of either tool returns a `result` or `error` value and never an exception,
and a buffered respond call whose model step folds that structured error
still completes successfully. -/
theorem delegation_fails_closed (fetched : Except String (Option Integration))
    (configConnectionId : Option String)
    (hnone : getConnectionId fetched configConnectionId = none)
    (taskRun taskRun2 : Except String String) (history : List Turn)
    (tone : Option String) (message : String) (additionalContext : Option String)
    (fold : DelegationToolResult → String) :
    delegateToGmailExecute (getConnectionId fetched configConnectionId) taskRun
      = .error gmailNotConnectedError ∧
    delegateToGmailExecute (getConnectionId fetched configConnectionId) taskRun
      = delegateToGmailExecute (getConnectionId fetched configConnectionId) taskRun2 ∧
    delegateToCalendarExecute (getConnectionId fetched configConnectionId) taskRun
      = .error calendarNotConnectedError ∧
    (∀ conn tr, (∃ t, delegateToGmailExecute conn tr = .result t) ∨
                (∃ m, delegateToGmailExecute conn tr = .error m)) ∧
    (∀ conn tr, (∃ t, delegateToCalendarExecute conn tr = .result t) ∨
                (∃ m, delegateToCalendarExecute conn tr = .error m)) ∧
    (processMessage history tone message additionalContext
      (.ok (fold (delegateToGmailExecute
        (getConnectionId fetched configConnectionId) taskRun)))).outcome
      = .ok (fold (.error gmailNotConnectedError)) := by
  rw [hnone]
  refine ⟨rfl, rfl, rfl, ?_, ?_, rfl⟩
  · intro conn tr
    cases conn with
    | none => exact .inr ⟨_, rfl⟩
    | some c =>
      by_cases hc : c = ""
      · exact .inr ⟨gmailNotConnectedError, by simp [delegateToGmailExecute, hc]⟩
      · cases tr with
        | ok t => exact .inl ⟨t, by simp [delegateToGmailExecute, hc]⟩
        | error m => exact .inr ⟨"Gmail task failed: " ++ m,
            by simp [delegateToGmailExecute, hc]⟩
  · intro conn tr
    cases conn with
    | none => exact .inr ⟨_, rfl⟩
    | some c =>
      by_cases hc : c = ""
      · exact .inr ⟨calendarNotConnectedError, by simp [delegateToCalendarExecute, hc]⟩
      · cases tr with
        | ok t => exact .inl ⟨t, by simp [delegateToCalendarExecute, hc]⟩
        | error m => exact .inr ⟨"Calendar task failed: " ++ m,
            by simp [delegateToCalendarExecute, hc]⟩

/-- C8 witness: with an integration store reporting no integration and no
config fallback, the Gmail delegation tool returns the structured
not-connected error. -/
theorem delegation_fails_closed_witness :
    delegateToGmailExecute (getConnectionId (.ok none) none) (.ok "task done")
      = .error gmailNotConnectedError :=
  (delegation_fails_closed (.ok none) none (by decide) (.ok "task done") (.error "x")
    initialHistory none "m" none (fun _ => "r")).1

/-- C9: the Gmail sub-agent fetches its toolset from the `gmail` toolkit
only and the Calendar sub-agent from the `googlecalendar` toolkit only, so
when the Composio fetch returns only tools of the requested toolkit, each
delegate's available toolset contains only its own capability's tools and
the two toolsets are disjoint. -/
theorem delegate_tool_isolation (fetch : String → String → List ComposioTool)
    (userId gmailConn calendarConn : String)
    (hfetch : ∀ uid tk t, t ∈ fetch uid tk → t.toolkit = tk) :
    (createGmailAgent fetch userId gmailConn).tools = fetch userId "gmail" ∧
    (createCalendarAgent fetch userId calendarConn).tools
      = fetch userId "googlecalendar" ∧
    (∀ t ∈ (createGmailAgent fetch userId gmailConn).tools, t.toolkit = "gmail") ∧
    (∀ t ∈ (createCalendarAgent fetch userId calendarConn).tools,
      t.toolkit = "googlecalendar") ∧
    (∀ t, t ∈ (createGmailAgent fetch userId gmailConn).tools →
      t ∈ (createCalendarAgent fetch userId calendarConn).tools → False) := by
  have hg : (createGmailAgent fetch userId gmailConn).tools = fetch userId "gmail" := by
    simp [createGmailAgent, composioToolsGet]
  have hc : (createCalendarAgent fetch userId calendarConn).tools
      = fetch userId "googlecalendar" := by
    simp [createCalendarAgent, composioToolsGet]
  refine ⟨hg, hc, ?_, ?_, ?_⟩
  · intro t ht
    exact hfetch userId "gmail" t (hg ▸ ht)
  · intro t ht
    exact hfetch userId "googlecalendar" t (hc ▸ ht)
  · intro t htg htc
    have h1 := hfetch userId "gmail" t (hg ▸ htg)
    have h2 := hfetch userId "googlecalendar" t (hc ▸ htc)
    rw [h1] at h2
    exact absurd h2 (by decide)

/-- C9 witness: instantiating the isolation theorem with a fetch that tags
each tool with its toolkit shows the Gmail delegate's tool is a `gmail`
tool. -/
theorem delegate_tool_isolation_witness :
    ComposioTool.toolkit ⟨"TOOL", "gmail"⟩ = "gmail" :=
  (delegate_tool_isolation exampleToolFetch "u1" "connA" "connB"
    (fun uid tk t ht => by
      simp [exampleToolFetch] at ht
      simp [ht])).2.2.1 ⟨"TOOL", "gmail"⟩
    (by simp [createGmailAgent, composioToolsGet, exampleToolFetch])

/-- C10: an orchestrator constructed without a `toneOfResponse` value
defaults it to `concise and direct`, so every buffered `processMessage`
call stores the user turn with the concise-tone suffix appended: the
message is never recorded verbatim. -/
theorem default_tone_never_verbatim (history : List Turn) (message : String)
    (additionalContext : Option String) (text : String) :
    resolveToneOfResponse none = some "concise and direct" ∧
    (processMessage history (resolveToneOfResponse none) message additionalContext
      (.ok text)).history
      = history ++ [⟨Role.user,
          withAdditionalContext additionalContext message ++ conciseSuffix⟩,
          ⟨Role.assistant, text⟩] ∧
    withAdditionalContext additionalContext message ++ conciseSuffix ≠ message := by
  refine ⟨rfl, ?_, ?_⟩
  · simp [resolveToneOfResponse, processMessage, applyTone_concise]
  · intro heq
    have hlen := congrArg String.length heq
    rw [String.length_append] at hlen
    have h1 := length_le_withAdditionalContext additionalContext message
    have h2 : 0 < conciseSuffix.length := by decide
    omega

end Supermind
